import Mathlib

/-!
Shallow embedding of the QQHKX/Random-Name draw engine.

Sources embedded here:
- the zustand store (Student, AppSettings, RollResult, AppState and its
  mutation methods, including drawNext and the store-local drawRarity);
- src/src/config/rarityConfig.ts (rarity and wear tables and samplers);
- src/src/App.tsx (buildSequence and rollRarity);
- src/src/components/Roulette.tsx (reel geometry: visibleCount, prepad,
  centerOffset, finalX and the completion snap);
- the commit logic of the SettingsModal import handlers.

JavaScript numbers are modelled as rationals; every call to Math.random()
becomes an explicit parameter u with 0 <= u < 1; Date.now() becomes an
explicit timestamp parameter; the uid() id generator becomes an explicit
id (or indexed id function) parameter.  Optional JS object fields are
modelled with Option; booleans that the code always initialises are plain
Bool.
-/

/-- Rarity type of the store and of rarityConfig.ts:
blue, purple, pink, red, gold. -/
inductive Rarity where
  | blue
  | purple
  | pink
  | red
  | gold
deriving DecidableEq, Repr

/-- Animation speed setting: slow, normal, fast. -/
inductive Speed where
  | slow
  | normal
  | fast
deriving DecidableEq, Repr

/-- Wear levels of rarityConfig.ts. -/
inductive WearLevel where
  | factoryNew
  | minimalWear
  | fieldTested
  | wellWorn
  | battleScarred
deriving DecidableEq, Repr

/-- Student entity of the store: id, name, optional avatarUrl, starred
mark (declared optional in TS; every constructor in the code initialises
it, so it is modelled as a plain Bool). -/
structure Student where
  id : String
  name : String
  avatarUrl : Option String
  starred : Bool
deriving DecidableEq, Repr

/-- RollResult as the store actually builds it: the interface declares
studentId, rarity and timestamp only.  Callers (App.tsx reads result.name
as the display name, the gallery renders r.name with a roster fallback)
treat a name field as optionally present on the record, so the absent
field is modelled as an Option that drawNext leaves at none. -/
structure RollResult where
  studentId : String
  name : Option String
  rarity : Rarity
  timestamp : Int
deriving DecidableEq, Repr

/-- Settings of the store. -/
structure AppSettings where
  className : String
  noRepeat : Bool
  speed : Speed
  bgmVolume : ℚ
  sfxVolume : ℚ
deriving DecidableEq, Repr

/-- Mutable state of the store: roster, pool, settings, history,
lastResult, selectedStudent. -/
structure AppState where
  roster : List Student
  pool : List String
  settings : AppSettings
  history : List RollResult
  lastResult : Option RollResult
  selectedStudent : Option Student
deriving DecidableEq, Repr

namespace rarityConfig

/-- RARITY_PROBABILITIES of rarityConfig.ts: BLUE .70, PURPLE .18,
PINK .08, RED .035, GOLD .005. -/
def RARITY_PROBABILITIES : Rarity → ℚ
  | .blue => 70/100
  | .purple => 18/100
  | .pink => 8/100
  | .red => 35/1000
  | .gold => 5/1000

/-- CUMULATIVE_PROBABILITIES of rarityConfig.ts, computed as the running
sums of RARITY_PROBABILITIES (GOLD is written as the literal 1.0 in the
source). -/
def CUMULATIVE_PROBABILITIES : Rarity → ℚ
  | .blue => RARITY_PROBABILITIES .blue
  | .purple => RARITY_PROBABILITIES .blue + RARITY_PROBABILITIES .purple
  | .pink =>
      RARITY_PROBABILITIES .blue + RARITY_PROBABILITIES .purple +
        RARITY_PROBABILITIES .pink
  | .red =>
      RARITY_PROBABILITIES .blue + RARITY_PROBABILITIES .purple +
        RARITY_PROBABILITIES .pink + RARITY_PROBABILITIES .red
  | .gold => 1

/-- drawRarity of rarityConfig.ts: linear scan through the cumulative
thresholds, gold as fallback; the Math.random() draw is the parameter. -/
def drawRarity (u : ℚ) : Rarity :=
  if u < CUMULATIVE_PROBABILITIES .blue then .blue
  else if u < CUMULATIVE_PROBABILITIES .purple then .purple
  else if u < CUMULATIVE_PROBABILITIES .pink then .pink
  else if u < CUMULATIVE_PROBABILITIES .red then .red
  else .gold

/-- Wear band data of WEAR_LEVELS: numeric interval plus display label
and color. -/
structure WearBand where
  min : ℚ
  max : ℚ
  label : String
  color : String
deriving DecidableEq, Repr

/-- WEAR_LEVELS of rarityConfig.ts. -/
def WEAR_LEVELS : WearLevel → WearBand
  | .factoryNew => ⟨0, 7/100, "崭新出厂", "#00FF00"⟩
  | .minimalWear => ⟨7/100, 15/100, "略有磨损", "#7FFF00"⟩
  | .fieldTested => ⟨15/100, 38/100, "久经沙场", "#FFFF00"⟩
  | .wellWorn => ⟨38/100, 45/100, "破损不堪", "#FF7F00"⟩
  | .battleScarred => ⟨45/100, 1, "战痕累累", "#FF0000"⟩

/-- Insertion order of the WEAR_LEVELS object literal, the order in which
Object.entries enumerates it. -/
def wearOrder : List WearLevel :=
  [.factoryNew, .minimalWear, .fieldTested, .wellWorn, .battleScarred]

/-- WEAR_PROBABILITIES of rarityConfig.ts. -/
def WEAR_PROBABILITIES : WearLevel → ℚ
  | .factoryNew => 15/100
  | .minimalWear => 25/100
  | .fieldTested => 35/100
  | .wellWorn => 20/100
  | .battleScarred => 5/100

/-- WEAR_CUMULATIVE_PROBABILITIES of rarityConfig.ts (battle-scarred is
the literal 1.0 in the source). -/
def WEAR_CUMULATIVE_PROBABILITIES : WearLevel → ℚ
  | .factoryNew => WEAR_PROBABILITIES .factoryNew
  | .minimalWear => WEAR_PROBABILITIES .factoryNew + WEAR_PROBABILITIES .minimalWear
  | .fieldTested =>
      WEAR_PROBABILITIES .factoryNew + WEAR_PROBABILITIES .minimalWear +
        WEAR_PROBABILITIES .fieldTested
  | .wellWorn =>
      WEAR_PROBABILITIES .factoryNew + WEAR_PROBABILITIES .minimalWear +
        WEAR_PROBABILITIES .fieldTested + WEAR_PROBABILITIES .wellWorn
  | .battleScarred => 1

/-- drawWearLevel of rarityConfig.ts: cumulative scan with battle-scarred
as fallback. -/
def drawWearLevel (u : ℚ) : WearLevel :=
  if u < WEAR_CUMULATIVE_PROBABILITIES .factoryNew then .factoryNew
  else if u < WEAR_CUMULATIVE_PROBABILITIES .minimalWear then .minimalWear
  else if u < WEAR_CUMULATIVE_PROBABILITIES .fieldTested then .fieldTested
  else if u < WEAR_CUMULATIVE_PROBABILITIES .wellWorn then .wellWorn
  else .battleScarred

/-- generateWearValue of rarityConfig.ts:
Math.random() * (max - min) + min. -/
def generateWearValue (u : ℚ) (wearLevel : WearLevel) : ℚ :=
  u * ((WEAR_LEVELS wearLevel).max - (WEAR_LEVELS wearLevel).min) +
    (WEAR_LEVELS wearLevel).min

/-- getWearLevelFromValue of rarityConfig.ts: scan the WEAR_LEVELS
entries in insertion order for the first band with min <= value < max,
defaulting to battle-scarred. -/
def getWearLevelFromValue (wearValue : ℚ) : WearLevel :=
  match wearOrder.find? (fun level =>
      decide ((WEAR_LEVELS level).min ≤ wearValue ∧
        wearValue < (WEAR_LEVELS level).max)) with
  | some level => level
  | none => .battleScarred

end rarityConfig

namespace appStore

/-- Store-local drawRarity: the comment in the store says blue 60,
purple 20, pink 12, red 7, gold 1 percent, and the code tests the draw
against the thresholds .60, .80, .92, .99 with gold as fallback. -/
def drawRarity (u : ℚ) : Rarity :=
  if u < 60/100 then .blue
  else if u < 80/100 then .purple
  else if u < 92/100 then .pink
  else if u < 99/100 then .red
  else .gold

/-- clamp01 of the store. -/
def clamp01 (n : ℚ) : ℚ := max 0 (min 1 n)

/-- Character-level model of the JS String.prototype.trim (and of the
Lean String.trim, which is opaque to proofs): drop whitespace from both
ends. -/
def jsTrim (s : String) : String :=
  ⟨(((s.data.dropWhile Char.isWhitespace).reverse).dropWhile
      Char.isWhitespace).reverse⟩

/-- Line parsing shared by importFromText and replaceRosterFromText.
The JS splits the text on the line-break regex; that raw line list is
the input here.  Each line is trimmed and empty lines are dropped.  The
empty JS string splits to the single raw line "" and so parses to no
names. -/
def parseNames (rawLines : List String) : List String :=
  (rawLines.map jsTrim).filter (fun l => l ≠ "")

/-- addStudent of the store: uid() is the freshId parameter; trims the
name, appends to the roster, and appends the id to the pool when
no-repeat mode is on. -/
def addStudent (freshId : String) (name : String) (avatarUrl : Option String)
    (s : AppState) : Student × AppState :=
  let student : Student :=
    { id := freshId, name := jsTrim name, avatarUrl := avatarUrl, starred := false }
  (student,
    { s with
      roster := s.roster ++ [student]
      pool := if s.settings.noRepeat then s.pool ++ [student.id] else s.pool })

/-- removeStudent of the store: filters the id out of roster and pool;
when the removed id is the studentId of lastResult, also clears
lastResult and selectedStudent. -/
def removeStudent (id : String) (s : AppState) : AppState :=
  let roster := s.roster.filter (fun st => st.id != id)
  let pool := s.pool.filter (fun sid => sid != id)
  if (s.lastResult.map (fun r => r.studentId)) = some id then
    { s with roster := roster, pool := pool,
             lastResult := none, selectedStudent := none }
  else
    { s with roster := roster, pool := pool }

/-- toggleStar of the store. -/
def toggleStar (id : String) (s : AppState) : AppState :=
  { s with roster := s.roster.map (fun st =>
      if st.id == id then { st with starred := !st.starred } else st) }

/-- importFromText of the store: parses the lines and, one name at a
time (the source runs one set() per name), appends a student to the
roster and its id to the pool when no-repeat is on.  mkId supplies the
uid() of the name at each index. -/
def importFromText (mkId : ℕ → String) (rawLines : List String) (s : AppState) :
    ℕ × AppState :=
  let names := parseNames rawLines
  (names.length,
    names.enum.foldl (fun st p =>
      let student : Student :=
        { id := mkId p.1, name := p.2, avatarUrl := none, starred := false }
      { st with
        roster := st.roster ++ [student]
        pool := if st.settings.noRepeat then st.pool ++ [student.id] else st.pool })
      s)

/-- replaceRosterFromText of the store: parses the lines, builds a fresh
roster, and unconditionally replaces roster and pool (pool is the new id
list when no-repeat is on, empty otherwise), clearing lastResult and
selectedStudent.  Returns the number of parsed names. -/
def replaceRosterFromText (mkId : ℕ → String) (rawLines : List String)
    (s : AppState) : ℕ × AppState :=
  let names := parseNames rawLines
  let newRoster : List Student := names.enum.map (fun p =>
    { id := mkId p.1, name := p.2, avatarUrl := none, starred := false })
  let newPool := if s.settings.noRepeat then newRoster.map (fun st => st.id) else []
  (newRoster.length,
    { s with roster := newRoster, pool := newPool,
             lastResult := none, selectedStudent := none })

/-- exportToText of the store. -/
def exportToText (s : AppState) : String :=
  String.intercalate "\n" (s.roster.map (fun st => st.name))

/-- resetPool of the store: pool becomes the full roster id list. -/
def resetPool (s : AppState) : AppState :=
  { s with pool := s.roster.map (fun st => st.id) }

/-- toggleNoRepeat of the store: an explicit boolean wins over a toggle;
enabling rebuilds the pool from the roster, disabling empties it. -/
def toggleNoRepeat (value : Option Bool) (s : AppState) : AppState :=
  let noRepeat := value.getD (!s.settings.noRepeat)
  { s with
    settings := { s.settings with noRepeat := noRepeat }
    pool := if noRepeat then s.roster.map (fun st => st.id) else [] }

/-- Eligible id list of drawNext: the pool when no-repeat is on and the
pool is non-empty (JS truthiness of pool.length), else the full roster
id list. -/
def eligibleIds (s : AppState) : List String :=
  if s.settings.noRepeat then
    (if s.pool.isEmpty then s.roster.map (fun st => st.id) else s.pool)
  else s.roster.map (fun st => st.id)

/-- drawNext of the store.  u is the Math.random() draw for the index,
uR the draw consumed by the store drawRarity, now the Date.now()
timestamp.  Returns the optional result together with the next state;
every early return leaves the state untouched. -/
def drawNext (u uR : ℚ) (now : Int) (s : AppState) : Option RollResult × AppState :=
  let sourceIds := eligibleIds s
  if sourceIds.isEmpty then (none, s)
  else
    let idx : ℕ := (Int.floor (u * sourceIds.length)).toNat
    match sourceIds[idx]? with
    | none => (none, s)
    | some studentId =>
      match s.roster.find? (fun st => st.id == studentId) with
      | none => (none, s)
      | some student =>
        let result : RollResult :=
          { studentId := studentId, name := none,
            rarity := drawRarity uR, timestamp := now }
        let nextPool :=
          if s.settings.noRepeat then
            (if s.pool.isEmpty then s.roster.map (fun it => it.id) else s.pool).filter
              (fun id => id != studentId)
          else s.pool
        let newHistory := s.history ++ [result]
        (some result,
          { s with
            pool := nextPool
            lastResult := some result
            selectedStudent := some student
            history := newHistory.drop (newHistory.length - 200) })

/-- clearHistory of the store. -/
def clearHistory (s : AppState) : AppState := { s with history := [] }

end appStore

/-- Reel tile built by App.tsx buildSequence (also RouletteItem of
Roulette.tsx): id, name, rarity. -/
structure RollItem where
  id : String
  name : String
  rarity : Rarity
deriving DecidableEq, Repr

namespace App

/-- rollRarity of App.tsx: delegates to the rarityConfig drawRarity (its
comment claims the probabilities agree with the store drawRarity). -/
def rollRarity (u : ℚ) : Rarity := rarityConfig.drawRarity u

/-- Filler count of buildSequence, derived from the speed setting:
fast 12, slow 24, otherwise 18. -/
def fillerCount (speed : Speed) : ℕ :=
  match speed with
  | .fast => 12
  | .slow => 24
  | .normal => 18

/-- Name source of buildSequence: all roster names when the roster is
non-empty, else the single target name. -/
def sourceNames (roster : List Student) (finalName : String) : List String :=
  if roster.length > 0 then roster.map (fun st => st.name) else [finalName]

/-- One filler name of buildSequence: stride-7 sampling through the name
source starting at the random offset; the JS fallback of finalName fires
when the indexed entry is falsy (the empty string). -/
def fillerName (names : List String) (finalName : String) (start i : ℕ) : String :=
  let n := names.getD ((start + i * 7) % max 1 names.length) ""
  if n = "" then finalName else n

/-- buildSequence of App.tsx: fillerCount stride-sampled fillers followed
by the target name; each tile id is its index joined with its name; the
last tile carries the true rarity, every other tile an independently
sampled rarityConfig rarity.  u is the Math.random() start draw, rar the
per-index rarity draws. -/
def buildSequence (finalName : String) (finalRarity : Rarity)
    (roster : List Student) (speed : Speed) (u : ℚ) (rar : ℕ → ℚ) :
    List RollItem :=
  let names := sourceNames roster finalName
  let start : ℕ := (Int.floor (u * (max 1 names.length : ℕ))).toNat
  let fillers := (List.range (fillerCount speed)).map
    (fun i => fillerName names finalName start i)
  let seq := fillers ++ [finalName]
  seq.enum.map (fun p =>
    { id := toString p.1 ++ "-" ++ p.2
      name := p.2
      rarity := if p.1 = seq.length - 1 then finalRarity else rollRarity (rar p.1) })

end App

namespace Roulette

/-- Tile width TILE_W of Roulette.tsx. -/
def TILE_W : ℚ := 120

/-- Inter-tile gap TILE_GAP of Roulette.tsx. -/
def TILE_GAP : ℚ := 8

/-- Step STEP = TILE_W + TILE_GAP. -/
def STEP : ℚ := TILE_W + TILE_GAP

/-- Measured layout of the reel viewport: total width and the horizontal
paddings read from computed style. -/
structure Layout where
  width : ℚ
  padL : ℚ
  padR : ℚ
deriving DecidableEq, Repr

/-- Content width as the finalX memo computes it:
Math.max(0, width - padL - padR). -/
def contentW (l : Layout) : ℚ := max 0 (l.width - l.padL - l.padR)

/-- visibleCount of the finalX memo: ceil((contentW + TILE_GAP) / STEP) + 1
when the content width is positive, else 0. -/
def visibleCount (l : Layout) : ℤ :=
  if 0 < contentW l then ⌈(contentW l + TILE_GAP) / STEP⌉ + 1 else 0

/-- half = Math.ceil(visibleCount / 2). -/
def half (l : Layout) : ℤ := ⌈(visibleCount l : ℚ) / 2⌉

/-- prepad = half + 1, the number of cloned tiles prepended on the left. -/
def prepad (l : Layout) : ℤ := half l + 1

/-- Position of the target tile inside the display sequence:
targetIndex + prepad. -/
def targetDisplayIndex (l : Layout) (targetIndex : ℕ) : ℤ :=
  (targetIndex : ℤ) + prepad l

/-- Container center of the finalX memo: padL + contentW / 2. -/
def containerCenter (l : Layout) : ℚ := l.padL + contentW l / 2

/-- Target tile center: targetDisplayIndex * STEP + TILE_W / 2. -/
def targetCenter (l : Layout) (targetIndex : ℕ) : ℚ :=
  (targetDisplayIndex l targetIndex : ℚ) * STEP + TILE_W / 2

/-- finalX of Roulette.tsx: containerCenter - targetCenter plus the
deliberate random offset (Math.random() - 0.5) * 30. -/
def finalX (l : Layout) (targetIndex : ℕ) (u : ℚ) : ℚ :=
  containerCenter l - targetCenter l targetIndex + (u - 1/2) * 30

/-- Rest position of the reel: onAnimationComplete snaps the x offset to
Math.round(finalX), which for JS numbers is the floor of finalX + 1/2 and
agrees with the Mathlib round. -/
def restX (l : Layout) (targetIndex : ℕ) (u : ℚ) : ℤ :=
  round (finalX l targetIndex u)

/-- centerOffset of the resize effect: 0 for an unmeasured container,
else padL + contentW / 2 - TILE_W / 2 (this code path does not clamp the
content width at 0). -/
def centerOffset (l : Layout) : ℚ :=
  if l.width ≤ 0 then 0
  else l.padL + (l.width - l.padL - l.padR) / 2 - TILE_W / 2

/-- localFinalX of the animation effect: the animation target is
centerOffset - targetDisplayIndex * STEP (no random offset on this
path). -/
def localFinalX (l : Layout) (targetIndex : ℕ) : ℚ :=
  centerOffset l - (targetDisplayIndex l targetIndex : ℚ) * STEP

/-- Final offset formula as the spec words it: containerCenterX -
(targetDisplayIndex * S + W / 2).  Stated for comparison with the code
definitions above. -/
def specFinalX (l : Layout) (targetIndex : ℕ) : ℚ :=
  containerCenter l - ((targetDisplayIndex l targetIndex : ℚ) * STEP + TILE_W / 2)

end Roulette

namespace SettingsModal

/-- Commit step of the reload-from-CSV handler: it always calls
replaceRosterFromText on the parsed names (the JS joins them with
newlines and the store re-splits, which round-trips for the trimmed
newline-free names the parser produces), and only then tests the
returned count (resetting the pool when positive). -/
def handleReloadRosterCommit (mkId : ℕ → String) (names : List String)
    (s : AppState) : AppState :=
  let p := appStore.replaceRosterFromText mkId names s
  if p.1 > 0 then appStore.resetPool p.2 else p.2

/-- Commit step of the file-upload import handler: replaceRosterFromText
runs only when at least one name was parsed (then the pool is reset when
the count is positive); with zero names the handler only alerts. -/
def handleFileImportCommit (mkId : ℕ → String) (names : List String)
    (s : AppState) : AppState :=
  if names.length > 0 then
    let p := appStore.replaceRosterFromText mkId names s
    if p.1 > 0 then appStore.resetPool p.2 else p.2
  else s

end SettingsModal

/-- Pool invariant of the spec data model: every id in the pool is the id
of a student present in the roster. -/
def poolInv (s : AppState) : Prop :=
  ∀ id ∈ s.pool, id ∈ s.roster.map (fun st => st.id)

/-- Sequence of consecutive drawNext calls: each triple carries the index
draw, the rarity draw and the timestamp of one call; returns the list of
per-call results together with the final state. -/
def drawSeq : List (ℚ × ℚ × Int) → AppState → List (Option RollResult) × AppState
  | [], s => ([], s)
  | p :: rest, s =>
      let q := appStore.drawNext p.1 p.2.1 p.2.2 s
      let r := drawSeq rest q.2
      (q.1 :: r.1, r.2)

/-- Default settings fixture with no-repeat mode on. -/
def settings0 : AppSettings := ⟨"CLASS A", true, .normal, 2/10, 6/10⟩

/-- Roster fixture of seven students with pairwise distinct names. -/
def st7 : List Student :=
  [⟨"s1", "A", none, false⟩, ⟨"s2", "B", none, false⟩, ⟨"s3", "C", none, false⟩,
   ⟨"s4", "D", none, false⟩, ⟨"s5", "E", none, false⟩, ⟨"s6", "F", none, false⟩,
   ⟨"s7", "G", none, false⟩]

/-- One-student state fixture with a full pool. -/
def state1 : AppState :=
  ⟨[⟨"s1", "Alice", none, false⟩], ["s1"], settings0, [], none, none⟩

/-- Three-student state fixture with a full pool. -/
def state3 : AppState :=
  ⟨[⟨"s1", "Alice", none, false⟩, ⟨"s2", "Bob", none, false⟩,
    ⟨"s3", "Carol", none, false⟩], ["s1", "s2", "s3"], settings0, [], none, none⟩

/-- Empty state fixture. -/
def stateEmpty : AppState := ⟨[], [], settings0, [], none, none⟩

/-- Three-student state fixture with an exhausted (empty) pool. -/
def statePoolEmpty : AppState :=
  ⟨[⟨"s1", "Alice", none, false⟩, ⟨"s2", "Bob", none, false⟩,
    ⟨"s3", "Carol", none, false⟩], [], settings0, [], none, none⟩

theorem getWearLevelFromValue_of_mem (level : WearLevel) (v : ℚ)
    (h1 : (rarityConfig.WEAR_LEVELS level).min ≤ v)
    (h2 : v < (rarityConfig.WEAR_LEVELS level).max) :
    rarityConfig.getWearLevelFromValue v = level := by
  cases level <;>
    simp only [rarityConfig.WEAR_LEVELS] at h1 h2
  case factoryNew =>
    simp [rarityConfig.getWearLevelFromValue, rarityConfig.wearOrder,
      rarityConfig.WEAR_LEVELS, List.find?, h1, h2]
  case minimalWear =>
    have e1 : ¬(v < 7/100) := by linarith
    simp [rarityConfig.getWearLevelFromValue, rarityConfig.wearOrder,
      rarityConfig.WEAR_LEVELS, List.find?, h1, h2, e1]
  case fieldTested =>
    have e1 : ¬(v < 7/100) := by linarith
    have e2 : ¬(v < 15/100) := by linarith
    simp [rarityConfig.getWearLevelFromValue, rarityConfig.wearOrder,
      rarityConfig.WEAR_LEVELS, List.find?, h1, h2, e1, e2]
  case wellWorn =>
    have e1 : ¬(v < 7/100) := by linarith
    have e2 : ¬(v < 15/100) := by linarith
    have e3 : ¬(v < 38/100) := by linarith
    simp [rarityConfig.getWearLevelFromValue, rarityConfig.wearOrder,
      rarityConfig.WEAR_LEVELS, List.find?, h1, h2, e1, e2, e3]
  case battleScarred =>
    have e1 : ¬(v < 7/100) := by linarith
    have e2 : ¬(v < 15/100) := by linarith
    have e3 : ¬(v < 38/100) := by linarith
    have e4 : ¬(v < 45/100) := by linarith
    simp [rarityConfig.getWearLevelFromValue, rarityConfig.wearOrder,
      rarityConfig.WEAR_LEVELS, List.find?, h1, h2, e1, e2, e3, e4]

theorem getWearLevelFromValue_default (v : ℚ) (h : v < 0 ∨ 1 ≤ v) :
    rarityConfig.getWearLevelFromValue v = .battleScarred := by
  rcases h with h | h
  · have e0 : ¬(0 ≤ v) := by linarith
    have e1 : ¬(7/100 ≤ v) := by linarith
    have e2 : ¬(15/100 ≤ v) := by linarith
    have e3 : ¬(38/100 ≤ v) := by linarith
    have e4 : ¬(45/100 ≤ v) := by linarith
    simp [rarityConfig.getWearLevelFromValue, rarityConfig.wearOrder,
      rarityConfig.WEAR_LEVELS, List.find?, e0, e1, e2, e3, e4]
  · have e1 : ¬(v < 7/100) := by linarith
    have e2 : ¬(v < 15/100) := by linarith
    have e3 : ¬(v < 38/100) := by linarith
    have e4 : ¬(v < 45/100) := by linarith
    have e5 : ¬(v < 1) := by linarith
    simp [rarityConfig.getWearLevelFromValue, rarityConfig.wearOrder,
      rarityConfig.WEAR_LEVELS, List.find?, e1, e2, e3, e4, e5]

/-- C2: the spec says every RollResult produced by drawNext carries a
name field holding the drawn student's name captured at draw time.  The
store builds the record from studentId, rarity and timestamp only, so
every result drawNext returns carries no name at all (App.tsx
nonetheless reads result.name as the display name). -/
theorem c2_drawnext_result_has_no_name :
    ∀ (u uR : ℚ) (now : Int) (s : AppState) (r : RollResult) (s2 : AppState),
      appStore.drawNext u uR now s = (some r, s2) → r.name = none := by
  intro u uR now s r s2 h
  simp only [appStore.drawNext] at h
  split at h
  · simp at h
  · split at h
    · simp at h
    · split at h
      · simp at h
      · simp at h
        obtain ⟨h1, -⟩ := h
        subst h1
        rfl

/-- C2 witness: a concrete one-student draw whose returned record has no
name. -/
theorem c2_drawnext_result_has_no_name_witness :
    (appStore.drawNext 0 0 0 state1).1.map RollResult.name = some none := by
  have h : appStore.drawNext 0 0 0 state1 =
      (some ⟨"s1", none, .blue, 0⟩,
       ⟨[⟨"s1", "Alice", none, false⟩], [], settings0,
        [⟨"s1", none, .blue, 0⟩], some ⟨"s1", none, .blue, 0⟩,
        some ⟨"s1", "Alice", none, false⟩⟩) := by
    norm_num [appStore.drawNext, appStore.eligibleIds, state1, settings0,
      appStore.drawRarity]
  rw [h]
  exact congrArg some (c2_drawnext_result_has_no_name 0 0 0 state1 _ _ h)

/-- C3: the spec says the committed-draw sampler and the filler sampler
are the same cumulative model (blue .70, purple .18, pink .08, red .035,
gold .005).  The store sampler used by drawNext still uses the old
thresholds .60/.80/.92/.99, so at the draw 0.65 the committed sampler
yields purple while the filler sampler (rarityConfig, used by App.tsx
rollRarity) yields blue. -/
theorem c3_rarity_samplers_differ :
    appStore.drawRarity (65/100) = Rarity.purple ∧
    App.rollRarity (65/100) = Rarity.blue ∧
    appStore.drawRarity (65/100) ≠ App.rollRarity (65/100) := by
  have h1 : appStore.drawRarity (65/100) = Rarity.purple := by
    norm_num [appStore.drawRarity]
  have h2 : App.rollRarity (65/100) = Rarity.blue := by
    norm_num [App.rollRarity, rarityConfig.drawRarity,
      rarityConfig.CUMULATIVE_PROBABILITIES, rarityConfig.RARITY_PROBABILITIES]
  refine ⟨h1, h2, ?_⟩
  rw [h1, h2]
  decide

/-- C4 (amended): for every draw result and roster, the last element of
the built sequence carries exactly the result's name and rarity. -/
theorem c4_last_tile_is_target :
    ∀ (finalName : String) (finalRarity : Rarity) (roster : List Student)
      (speed : Speed) (u : ℚ) (rar : ℕ → ℚ),
      ((App.buildSequence finalName finalRarity roster speed u rar).map
          (fun it => it.name)).getLast? = some finalName ∧
      ((App.buildSequence finalName finalRarity roster speed u rar).map
          (fun it => it.rarity)).getLast? = some finalRarity := by
  intro finalName finalRarity roster speed u rar
  simp only [App.buildSequence]
  constructor <;>
    simp [List.enum_append, List.enumFrom_singleton, List.map_append,
      List.getLast?_concat, List.length_append]

/-- C4 counterexample: with a seven-name roster (at least two distinct
names) the stride-7 filler sampling repeats one name, so the first two
tiles of the built sequence share the same name, refuting the
no-adjacent-duplicates part of the claim. -/
theorem c4_adjacent_counterexample :
    ((App.buildSequence "A" .blue st7 .normal 0 (fun _ => 0)).map
        (fun it => it.name))[0]? = some "A" ∧
    ((App.buildSequence "A" .blue st7 .normal 0 (fun _ => 0)).map
        (fun it => it.name))[1]? = some "A" ∧
    "A" ∈ st7.map (fun st => st.name) ∧ "B" ∈ st7.map (fun st => st.name) ∧
    ("A" : String) ≠ "B" := by
  refine ⟨?_, ?_, ?_, ?_, by decide⟩ <;>
    norm_num [App.buildSequence, App.sourceNames, App.fillerName, st7,
      App.fillerCount, App.rollRarity, List.enum, List.range_succ]

/-- C9: generateWearValue lands in the half-open band of its level, the
inverse lookup maps every such value back to the same level, and values
outside every band default to battle-scarred. -/
theorem c9_wear_roundtrip :
    (∀ (level : WearLevel) (u : ℚ), 0 ≤ u → u < 1 →
      (rarityConfig.WEAR_LEVELS level).min ≤ rarityConfig.generateWearValue u level ∧
      rarityConfig.generateWearValue u level < (rarityConfig.WEAR_LEVELS level).max ∧
      rarityConfig.getWearLevelFromValue (rarityConfig.generateWearValue u level) =
        level) ∧
    (∀ v : ℚ, v < 0 ∨ 1 ≤ v →
      rarityConfig.getWearLevelFromValue v = .battleScarred) := by
  constructor
  · intro level u hu hu1
    have hlo : (rarityConfig.WEAR_LEVELS level).min ≤
        rarityConfig.generateWearValue u level := by
      cases level <;>
        simp only [rarityConfig.generateWearValue, rarityConfig.WEAR_LEVELS] <;>
        nlinarith
    have hhi : rarityConfig.generateWearValue u level <
        (rarityConfig.WEAR_LEVELS level).max := by
      cases level <;>
        simp only [rarityConfig.generateWearValue, rarityConfig.WEAR_LEVELS] <;>
        nlinarith
    exact ⟨hlo, hhi, getWearLevelFromValue_of_mem level _ hlo hhi⟩
  · exact getWearLevelFromValue_default

/-- C9 witness: the round-trip at the field-tested level with the draw
one half, and the default at the out-of-range value two. -/
theorem c9_wear_roundtrip_witness :
    (rarityConfig.WEAR_LEVELS .fieldTested).min ≤
      rarityConfig.generateWearValue (1/2) .fieldTested ∧
    rarityConfig.generateWearValue (1/2) .fieldTested <
      (rarityConfig.WEAR_LEVELS .fieldTested).max ∧
    rarityConfig.getWearLevelFromValue
      (rarityConfig.generateWearValue (1/2) .fieldTested) = .fieldTested ∧
    rarityConfig.getWearLevelFromValue 2 = .battleScarred := by
  obtain ⟨a, b, c⟩ := c9_wear_roundtrip.1 .fieldTested (1/2) (by norm_num) (by norm_num)
  exact ⟨a, b, c, c9_wear_roundtrip.2 2 (Or.inr (by norm_num))⟩

/-- C10: removeStudent never modifies history (or settings); it filters
the id out of roster and pool, and it clears lastResult and
selectedStudent exactly when the removed id is the studentId of the
current lastResult, leaving both unchanged otherwise. -/
theorem c10_removeStudent_frame :
    ∀ (id : String) (s : AppState),
      (appStore.removeStudent id s).history = s.history ∧
      (appStore.removeStudent id s).settings = s.settings ∧
      (appStore.removeStudent id s).roster = s.roster.filter (fun st => st.id != id) ∧
      (appStore.removeStudent id s).pool = s.pool.filter (fun sid => sid != id) ∧
      (appStore.removeStudent id s).lastResult =
        (if s.lastResult.map (fun r => r.studentId) = some id then none
         else s.lastResult) ∧
      (appStore.removeStudent id s).selectedStudent =
        (if s.lastResult.map (fun r => r.studentId) = some id then none
         else s.selectedStudent) := by
  intro id s
  by_cases h : (s.lastResult.map (fun r => r.studentId)) = some id <;>
    simp [appStore.removeStudent, h]

theorem eligibleIds_subset (s : AppState) (hinv : poolInv s) :
    ∀ id ∈ appStore.eligibleIds s, id ∈ s.roster.map (fun st => st.id) := by
  intro id hid
  simp only [appStore.eligibleIds] at hid
  split at hid
  · split at hid
    · exact hid
    · exact hinv id hid
  · exact hid

theorem eligibleIds_ne_nil (s : AppState) (hne : s.roster ≠ []) :
    appStore.eligibleIds s ≠ [] := by
  simp only [appStore.eligibleIds]
  split
  · split
    · simpa using hne
    · simp_all [List.isEmpty_iff]
  · simpa using hne

set_option maxRecDepth 8000 in
theorem drawNext_success (u uR : ℚ) (now : Int) (s : AppState)
    (hu0 : 0 ≤ u) (hu1 : u < 1) (hinv : poolInv s) (hne : s.roster ≠ []) :
    ∃ (r : RollResult) (s2 : AppState),
      appStore.drawNext u uR now s = (some r, s2) ∧
      (appStore.eligibleIds s)[(Int.floor
        (u * (appStore.eligibleIds s).length)).toNat]? = some r.studentId ∧
      r.name = none ∧ r.rarity = appStore.drawRarity uR ∧ r.timestamp = now ∧
      s2.roster = s.roster ∧ s2.settings = s.settings ∧
      s2.pool = (if s.settings.noRepeat then
          (if s.pool.isEmpty then s.roster.map (fun it => it.id) else s.pool).filter
            (fun id => id != r.studentId)
        else s.pool) ∧
      s2.history = (s.history ++ [r]).drop ((s.history ++ [r]).length - 200) ∧
      s2.lastResult = some r := by
  have hsne : appStore.eligibleIds s ≠ [] := eligibleIds_ne_nil s hne
  have hlen : 0 < (appStore.eligibleIds s).length := List.length_pos.mpr hsne
  set sids := appStore.eligibleIds s with hsids
  set idx : ℕ := (Int.floor (u * sids.length)).toNat with hidx
  have hfl0 : (0:ℤ) ≤ Int.floor (u * sids.length) :=
    Int.floor_nonneg.mpr (mul_nonneg hu0 (by positivity))
  have hflt : Int.floor (u * sids.length) < (sids.length : ℤ) := by
    rw [Int.floor_lt]
    have : u * sids.length < 1 * sids.length := by
      apply mul_lt_mul_of_pos_right hu1
      exact_mod_cast hlen
    simpa using this
  have hidxlt : idx < sids.length := by
    rw [hidx]
    exact (Int.toNat_lt hfl0).mpr hflt
  have hget : sids[idx]? = some sids[idx] := List.getElem?_eq_getElem hidxlt
  have hmem : sids[idx] ∈ sids := List.getElem_mem hidxlt
  have hmemr : sids[idx] ∈ s.roster.map (fun st => st.id) :=
    eligibleIds_subset s hinv _ hmem
  have hfind : ∃ st, s.roster.find? (fun st => st.id == sids[idx]) = some st := by
    rw [← Option.isSome_iff_exists]
    rw [List.find?_isSome]
    obtain ⟨st, hst, hsteq⟩ := List.mem_map.mp hmemr
    exact ⟨st, hst, by simp [hsteq]⟩
  obtain ⟨st, hfind⟩ := hfind
  refine ⟨⟨sids[idx], none, appStore.drawRarity uR, now⟩,
    { s with
      pool := if s.settings.noRepeat then
          (if s.pool.isEmpty then s.roster.map (fun it => it.id) else s.pool).filter
            (fun id => id != sids[idx])
        else s.pool
      lastResult := some ⟨sids[idx], none, appStore.drawRarity uR, now⟩
      selectedStudent := some st
      history := (s.history ++
        [(⟨sids[idx], none, appStore.drawRarity uR, now⟩ : RollResult)]).drop
        ((s.history ++
          [(⟨sids[idx], none, appStore.drawRarity uR, now⟩ : RollResult)]).length -
          200) },
    ?_, by rw [hget], rfl, rfl, rfl, rfl, rfl, rfl, rfl, rfl⟩
  simp only [appStore.drawNext]
  rw [if_neg (by simpa [List.isEmpty_iff] using hsne)]
  rw [← hsids, ← hidx, hget]
  simp only [hfind]


/-- C6: under the pool-subset invariant drawNext returns none exactly
when the roster is empty, and on that error path the whole state is left
untouched (the draw commits nothing). -/
theorem c6_empty_roster_draw :
    ∀ (u uR : ℚ) (now : Int) (s : AppState), 0 ≤ u → u < 1 → poolInv s →
      (((appStore.drawNext u uR now s).1 = none) ↔ s.roster = []) ∧
      (s.roster = [] → appStore.drawNext u uR now s = (none, s)) := by
  intro u uR now s hu0 hu1 hinv
  by_cases hr : s.roster = []
  · have hpool : s.pool = [] := by
      rw [List.eq_nil_iff_forall_not_mem]
      intro a ha
      have hmem := hinv a ha
      rw [hr] at hmem
      simp at hmem
    have hdraw : appStore.drawNext u uR now s = (none, s) := by
      simp [appStore.drawNext, appStore.eligibleIds, hr, hpool]
    simp [hdraw, hr]
  · obtain ⟨r, s2, heq, -⟩ := drawNext_success u uR now s hu0 hu1 hinv hr
    rw [heq]
    simp [hr]

/-- C6 witness: the empty-roster state draws to none without mutation. -/
theorem c6_empty_roster_draw_witness :
    (((appStore.drawNext 0 0 0 stateEmpty).1 = none) ↔ stateEmpty.roster = []) ∧
    (stateEmpty.roster = [] → appStore.drawNext 0 0 0 stateEmpty = (none, stateEmpty)) :=
  c6_empty_roster_draw 0 0 0 stateEmpty (by norm_num) (by norm_num)
    (by unfold poolInv; decide)

theorem poolInv_append_student (s : AppState) (h : poolInv s) (stuId nm : String)
    (av : Option String) (star : Bool) :
    poolInv { s with
      roster := s.roster ++
        [{ id := stuId, name := nm, avatarUrl := av, starred := star }]
      pool := if s.settings.noRepeat then s.pool ++ [stuId] else s.pool } := by
  intro id hid
  simp only [List.map_append, List.map_cons, List.map_nil, List.mem_append,
    List.mem_singleton]
  by_cases hnr : s.settings.noRepeat
  · rw [if_pos hnr] at hid
    rcases List.mem_append.mp hid with hid | hid
    · exact Or.inl (h id hid)
    · right
      simpa using hid
  · rw [if_neg hnr] at hid
    exact Or.inl (h id hid)

theorem poolInv_addStudent (freshId name : String) (avatarUrl : Option String)
    (s : AppState) (h : poolInv s) :
    poolInv (appStore.addStudent freshId name avatarUrl s).2 := by
  simpa [appStore.addStudent] using
    poolInv_append_student s h freshId (appStore.jsTrim name) avatarUrl false

theorem poolInv_removeStudent (id0 : String) (s : AppState) (h : poolInv s) :
    poolInv (appStore.removeStudent id0 s) := by
  have key : ∀ id ∈ s.pool.filter (fun sid => sid != id0),
      id ∈ (s.roster.filter (fun st => st.id != id0)).map (fun st => st.id) := by
    intro id hid
    rw [List.mem_filter] at hid
    obtain ⟨hmem, hne⟩ := hid
    obtain ⟨st, hst, hsteq⟩ := List.mem_map.mp (h id hmem)
    refine List.mem_map.mpr ⟨st, List.mem_filter.mpr ⟨hst, ?_⟩, hsteq⟩
    rw [hsteq]
    exact hne
  intro id hid
  simp only [appStore.removeStudent] at hid ⊢
  split at hid <;> split <;> simp_all

theorem poolInv_importFromText (mkId : ℕ → String) (rawLines : List String)
    (s : AppState) (h : poolInv s) :
    poolInv (appStore.importFromText mkId rawLines s).2 := by
  simp only [appStore.importFromText]
  generalize (appStore.parseNames rawLines).enum = l
  induction l generalizing s with
  | nil => exact h
  | cons p rest ih =>
    simp only [List.foldl_cons]
    exact ih _ (poolInv_append_student s h (mkId p.1) p.2 none false)

theorem poolInv_replaceRosterFromText (mkId : ℕ → String) (rawLines : List String)
    (s : AppState) :
    poolInv (appStore.replaceRosterFromText mkId rawLines s).2 := by
  intro id hid
  simp only [appStore.replaceRosterFromText] at hid ⊢
  split at hid
  · exact hid
  · simp at hid

theorem poolInv_resetPool (s : AppState) : poolInv (appStore.resetPool s) := by
  intro id hid
  simpa [appStore.resetPool] using hid

theorem poolInv_toggleNoRepeat (value : Option Bool) (s : AppState) :
    poolInv (appStore.toggleNoRepeat value s) := by
  intro id hid
  simp only [appStore.toggleNoRepeat] at hid ⊢
  split at hid
  · exact hid
  · simp at hid

theorem poolInv_drawNext (u uR : ℚ) (now : Int) (s : AppState) (h : poolInv s) :
    poolInv (appStore.drawNext u uR now s).2 := by
  simp only [appStore.drawNext]
  split
  · exact h
  · split
    · exact h
    · split
      · exact h
      · intro id hid
        simp only at hid
        split at hid
        · rcases List.mem_filter.mp hid with ⟨hmem, -⟩
          split at hmem
          · exact hmem
          · exact h id hmem
        · exact h id hid

/-- C8: the pool-subset-of-roster-ids invariant is preserved by
addStudent, removeStudent, importFromText, replaceRosterFromText,
resetPool, toggleNoRepeat and drawNext. -/
theorem c8_pool_subset_invariant :
    (∀ (freshId name : String) (avatarUrl : Option String) (s : AppState),
      poolInv s → poolInv (appStore.addStudent freshId name avatarUrl s).2) ∧
    (∀ (id : String) (s : AppState),
      poolInv s → poolInv (appStore.removeStudent id s)) ∧
    (∀ (mkId : ℕ → String) (rawLines : List String) (s : AppState),
      poolInv s → poolInv (appStore.importFromText mkId rawLines s).2) ∧
    (∀ (mkId : ℕ → String) (rawLines : List String) (s : AppState),
      poolInv (appStore.replaceRosterFromText mkId rawLines s).2) ∧
    (∀ s : AppState, poolInv (appStore.resetPool s)) ∧
    (∀ (value : Option Bool) (s : AppState),
      poolInv (appStore.toggleNoRepeat value s)) ∧
    (∀ (u uR : ℚ) (now : Int) (s : AppState),
      poolInv s → poolInv (appStore.drawNext u uR now s).2) :=
  ⟨poolInv_addStudent, poolInv_removeStudent, poolInv_importFromText,
   poolInv_replaceRosterFromText, poolInv_resetPool, poolInv_toggleNoRepeat,
   poolInv_drawNext⟩

/-- C8 witness: each of the seven operations applied to a concrete
three-student state keeps the invariant. -/
theorem c8_pool_subset_invariant_witness :
    poolInv (appStore.addStudent "s9" "Dan" none state3).2 ∧
    poolInv (appStore.removeStudent "s2" state3) ∧
    poolInv (appStore.importFromText (fun n => toString n) ["Eve"] state3).2 ∧
    poolInv (appStore.replaceRosterFromText (fun n => toString n) ["Eve"] state3).2 ∧
    poolInv (appStore.resetPool state3) ∧
    poolInv (appStore.toggleNoRepeat none state3) ∧
    poolInv (appStore.drawNext 0 0 0 state3).2 := by
  have hinv : poolInv state3 := by unfold poolInv; decide
  exact ⟨c8_pool_subset_invariant.1 "s9" "Dan" none state3 hinv,
    c8_pool_subset_invariant.2.1 "s2" state3 hinv,
    c8_pool_subset_invariant.2.2.1 (fun n => toString n) ["Eve"] state3 hinv,
    c8_pool_subset_invariant.2.2.2.1 (fun n => toString n) ["Eve"] state3,
    c8_pool_subset_invariant.2.2.2.2.1 state3,
    c8_pool_subset_invariant.2.2.2.2.2.1 none state3,
    c8_pool_subset_invariant.2.2.2.2.2.2 0 0 0 state3 hinv⟩

theorem drawNext_noRepeat_step (u uR : ℚ) (now : Int) (s : AppState)
    (hnr : s.settings.noRepeat = true) (hp : s.pool ≠ []) (hinv : poolInv s)
    (hu0 : 0 ≤ u) (hu1 : u < 1) :
    ∃ (r : RollResult) (s2 : AppState),
      appStore.drawNext u uR now s = (some r, s2) ∧
      s.pool[(Int.floor (u * s.pool.length)).toNat]? = some r.studentId ∧
      r.studentId ∈ s.pool ∧
      s2.pool = s.pool.filter (fun id => id != r.studentId) ∧
      s2.roster = s.roster ∧ s2.settings = s.settings := by
  have hne : s.roster ≠ [] := by
    obtain ⟨a, ha⟩ := List.exists_mem_of_ne_nil s.pool hp
    have hmem := hinv a ha
    intro hcontra
    rw [hcontra] at hmem
    simp at hmem
  have helig : appStore.eligibleIds s = s.pool := by
    simp [appStore.eligibleIds, hnr, List.isEmpty_iff, hp]
  obtain ⟨r, s2, heq, hsel, hname, hrar, hts, hros, hset, hpool, hhist, hlast⟩ :=
    drawNext_success u uR now s hu0 hu1 hinv hne
  rw [helig] at hsel
  have hmem : r.studentId ∈ s.pool := by
    obtain ⟨hlt, hgeteq⟩ := List.getElem?_eq_some.mp hsel
    rw [← hgeteq]
    exact List.getElem_mem hlt
  have hpool2 : s2.pool = s.pool.filter (fun id => id != r.studentId) := by
    rw [hpool, if_pos hnr, if_neg (by simpa [List.isEmpty_iff] using hp)]
  exact ⟨r, s2, heq, hsel, hmem, hpool2, hros, hset⟩

theorem drawSeq_noRepeat_spec :
    ∀ (ps : List (ℚ × ℚ × Int)) (s : AppState),
      s.settings.noRepeat = true → poolInv s → s.pool.Nodup →
      ps.length ≤ s.pool.length → (∀ p ∈ ps, 0 ≤ p.1 ∧ p.1 < 1) →
      (∀ o ∈ (drawSeq ps s).1, o.isSome) ∧
      ((drawSeq ps s).1.map (Option.map RollResult.studentId)).Nodup ∧
      (∀ o ∈ (drawSeq ps s).1, ∀ r : RollResult,
        o = some r → r.studentId ∈ s.pool) := by
  intro ps
  induction ps with
  | nil =>
    intro s _ _ _ _ _
    simp [drawSeq]
  | cons p rest ih =>
    intro s hnr hinv hnodup hlen hbounds
    have hp : s.pool ≠ [] := by
      intro hcontra
      rw [hcontra] at hlen
      simp at hlen
    obtain ⟨r, s2, heq, hsel, hmem, hpool2, hros, hset⟩ :=
      drawNext_noRepeat_step p.1 p.2.1 p.2.2 s hnr hp hinv
        (hbounds p (by simp)).1 (hbounds p (by simp)).2
    have hfilter_eq : s.pool.filter (fun id => id != r.studentId) =
        s.pool.erase r.studentId := (hnodup.erase_eq_filter r.studentId).symm
    have hlen2 : s2.pool.length = s.pool.length - 1 := by
      rw [hpool2, hfilter_eq]
      exact List.length_erase_of_mem hmem
    have hinv2 : poolInv s2 := by
      have hbase := poolInv_drawNext p.1 p.2.1 p.2.2 s hinv
      rw [heq] at hbase
      exact hbase
    have hnodup2 : s2.pool.Nodup := by
      rw [hpool2]
      exact hnodup.filter _
    have hnr2 : s2.settings.noRepeat = true := by
      rw [hset]
      exact hnr
    have hlen3 : rest.length ≤ s2.pool.length := by
      simp only [List.length_cons] at hlen
      omega
    obtain ⟨ih1, ih2, ih3⟩ := ih s2 hnr2 hinv2 hnodup2 hlen3
      (fun q hq => hbounds q (by simp [hq]))
    have hds : drawSeq (p :: rest) s =
        (some r :: (drawSeq rest s2).1, (drawSeq rest s2).2) := by
      simp [drawSeq, heq]
    rw [hds]
    refine ⟨?_, ?_, ?_⟩
    · intro o ho
      simp only [List.mem_cons] at ho
      rcases ho with rfl | ho
      · simp
      · exact ih1 o ho
    · simp only [List.map_cons, List.nodup_cons]
      refine ⟨?_, ih2⟩
      intro hcontra
      obtain ⟨o, homem, hoeq⟩ := List.mem_map.mp hcontra
      have hsome := ih1 o homem
      obtain ⟨r2, rfl⟩ := Option.isSome_iff_exists.mp hsome
      have hr2id : r2.studentId = r.studentId := by
        simpa using hoeq
      have hr2mem := ih3 (some r2) homem r2 rfl
      rw [hpool2] at hr2mem
      rcases List.mem_filter.mp hr2mem with ⟨-, hbad⟩
      rw [hr2id] at hbad
      simp at hbad
    · intro o ho r2 hor
      simp only [List.mem_cons] at ho
      rcases ho with rfl | ho
      · rw [Option.some_inj] at hor
        rw [← hor]
        exact hmem
      · have hr2mem := ih3 o ho r2 hor
        rw [hpool2] at hr2mem
        exact (List.mem_filter.mp hr2mem).1


/-- C5: with no-repeat on and a non-empty pool, drawNext succeeds,
selects the pool entry at the uniform index floor(u * poolLength) and
removes exactly that id from the pool; starting from a full pool with
duplicate-free roster ids, any run of at most rosterLength consecutive
draws returns pairwise distinct student ids; and with no-repeat on and an
empty pool the eligible set is the full roster and the new pool is the
roster ids minus the drawn id. -/
theorem c5_no_repeat_draws :
    (∀ (u uR : ℚ) (now : Int) (s : AppState),
      s.settings.noRepeat = true → s.pool ≠ [] → poolInv s → 0 ≤ u → u < 1 →
      ∃ (r : RollResult) (s2 : AppState),
        appStore.drawNext u uR now s = (some r, s2) ∧
        s.pool[(Int.floor (u * s.pool.length)).toNat]? = some r.studentId ∧
        r.studentId ∈ s.pool ∧
        s2.pool = s.pool.filter (fun id => id != r.studentId)) ∧
    (∀ (ps : List (ℚ × ℚ × Int)) (s : AppState),
      s.settings.noRepeat = true → (s.roster.map (fun st => st.id)).Nodup →
      s.pool = s.roster.map (fun st => st.id) → ps.length ≤ s.roster.length →
      (∀ p ∈ ps, 0 ≤ p.1 ∧ p.1 < 1) →
      (∀ o ∈ (drawSeq ps s).1, o.isSome) ∧
      ((drawSeq ps s).1.map (Option.map RollResult.studentId)).Nodup) ∧
    (∀ (u uR : ℚ) (now : Int) (s : AppState),
      s.settings.noRepeat = true → s.pool = [] → s.roster ≠ [] → 0 ≤ u → u < 1 →
      ∃ (r : RollResult) (s2 : AppState),
        appStore.drawNext u uR now s = (some r, s2) ∧
        r.studentId ∈ s.roster.map (fun st => st.id) ∧
        s2.pool = (s.roster.map (fun st => st.id)).filter
          (fun id => id != r.studentId)) := by
  refine ⟨?_, ?_, ?_⟩
  · intro u uR now s hnr hp hinv hu0 hu1
    obtain ⟨r, s2, heq, hsel, hmem, hpool2, -, -⟩ :=
      drawNext_noRepeat_step u uR now s hnr hp hinv hu0 hu1
    exact ⟨r, s2, heq, hsel, hmem, hpool2⟩
  · intro ps s hnr hnodup hpool hlen hbounds
    have hinv : poolInv s := by
      intro id hid
      rw [hpool] at hid
      exact hid
    have hnodup2 : s.pool.Nodup := by
      rw [hpool]
      exact hnodup
    have hlen2 : ps.length ≤ s.pool.length := by
      rw [hpool]
      simpa using hlen
    obtain ⟨h1, h2, -⟩ := drawSeq_noRepeat_spec ps s hnr hinv hnodup2 hlen2 hbounds
    exact ⟨h1, h2⟩
  · intro u uR now s hnr hp hne hu0 hu1
    have hinv : poolInv s := by
      intro id hid
      rw [hp] at hid
      simp at hid
    obtain ⟨r, s2, heq, hsel, hname, hrar, hts, hros, hset, hpool, hhist, hlast⟩ :=
      drawNext_success u uR now s hu0 hu1 hinv hne
    have helig : appStore.eligibleIds s = s.roster.map (fun st => st.id) := by
      simp [appStore.eligibleIds, hnr, hp]
    rw [helig] at hsel
    have hmem : r.studentId ∈ s.roster.map (fun st => st.id) := by
      obtain ⟨hlt, hgeteq⟩ := List.getElem?_eq_some.mp hsel
      rw [← hgeteq]
      exact List.getElem_mem hlt
    have hpool2 : s2.pool = (s.roster.map (fun st => st.id)).filter
        (fun id => id != r.studentId) := by
      rw [hpool, if_pos hnr, if_pos (by simp [hp])]
    exact ⟨r, s2, heq, hmem, hpool2⟩

/-- C5 witness: concrete draws on the three-student fixtures for the
non-empty-pool case, a two-draw no-repeat run, and the empty-pool
fallback. -/
theorem c5_no_repeat_draws_witness :
    (∃ r s2, appStore.drawNext 0 0 0 state3 = (some r, s2) ∧
      state3.pool[(Int.floor ((0:ℚ) * state3.pool.length)).toNat]? =
        some r.studentId ∧
      r.studentId ∈ state3.pool ∧
      s2.pool = state3.pool.filter (fun id => id != r.studentId)) ∧
    ((∀ o ∈ (drawSeq [(0, 0, 0), (1/2, 0, 0)] state3).1, o.isSome) ∧
      ((drawSeq [(0, 0, 0), (1/2, 0, 0)] state3).1.map
        (Option.map RollResult.studentId)).Nodup) ∧
    (∃ r s2, appStore.drawNext 0 0 0 statePoolEmpty = (some r, s2) ∧
      r.studentId ∈ statePoolEmpty.roster.map (fun st => st.id) ∧
      s2.pool = (statePoolEmpty.roster.map (fun st => st.id)).filter
        (fun id => id != r.studentId)) := by
  refine ⟨c5_no_repeat_draws.1 0 0 0 state3 (by decide) (by decide)
      (by unfold poolInv; decide) (by norm_num) (by norm_num),
    c5_no_repeat_draws.2.1 [(0, 0, 0), (1/2, 0, 0)] state3 (by decide) (by decide)
      (by decide) (by decide) ?_,
    c5_no_repeat_draws.2.2 0 0 0 statePoolEmpty (by decide) (by decide) (by decide)
      (by norm_num) (by norm_num)⟩
  intro p hp
  fin_cases hp <;> norm_num

/-- C7 counterexample: replaceRosterFromText on input parsing to zero
names replaces the one-student roster with an empty roster and pool, and
the reload-from-CSV commit path does the same; the import is not left
untouched. -/
theorem c7_empty_import_counterexample :
    (appStore.replaceRosterFromText (fun n => toString n) [""] state1).2.roster = [] ∧
    (appStore.replaceRosterFromText (fun n => toString n) [""] state1).2.pool = [] ∧
    (SettingsModal.handleReloadRosterCommit (fun n => toString n) [] state1).roster
      = [] ∧
    state1.roster ≠ [] := by
  refine ⟨?_, ?_, ?_, by decide⟩ <;>
    simp [appStore.replaceRosterFromText, appStore.parseNames, appStore.jsTrim,
      SettingsModal.handleReloadRosterCommit, appStore.resetPool, state1, settings0]

/-- C7 (amended): the file-upload import commit leaves the state
untouched when zero names were parsed, but replaceRosterFromText itself
unconditionally replaces roster and pool (an empty parse empties both and
clears lastResult and selectedStudent), and the reload-from-CSV commit
path empties roster and pool on an empty parse. -/
theorem c7_amended_import_guards :
    (∀ (mkId : ℕ → String) (s : AppState),
      SettingsModal.handleFileImportCommit mkId [] s = s) ∧
    (∀ (mkId : ℕ → String) (rawLines : List String) (s : AppState),
      appStore.parseNames rawLines = [] →
      (appStore.replaceRosterFromText mkId rawLines s).2 =
        { s with roster := [], pool := [], lastResult := none,
                 selectedStudent := none }) ∧
    (∀ (mkId : ℕ → String) (s : AppState),
      (SettingsModal.handleReloadRosterCommit mkId [] s).roster = [] ∧
      (SettingsModal.handleReloadRosterCommit mkId [] s).pool = []) := by
  refine ⟨?_, ?_, ?_⟩
  · intro mkId s
    simp [SettingsModal.handleFileImportCommit]
  · intro mkId rawLines s h
    simp [appStore.replaceRosterFromText, h]
  · intro mkId s
    constructor <;>
      simp [SettingsModal.handleReloadRosterCommit, appStore.replaceRosterFromText,
        appStore.parseNames]

/-- C7 witness: the guarded and unguarded empty-parse imports on the
one-student fixture. -/
theorem c7_amended_import_guards_witness :
    SettingsModal.handleFileImportCommit (fun n => toString n) [] state1 = state1 ∧
    (appStore.replaceRosterFromText (fun n => toString n) [""] state1).2 =
      { state1 with roster := [], pool := [], lastResult := none,
                    selectedStudent := none } ∧
    (SettingsModal.handleReloadRosterCommit (fun n => toString n) [] state1).roster
      = [] ∧
    (SettingsModal.handleReloadRosterCommit (fun n => toString n) [] state1).pool
      = [] := by
  refine ⟨c7_amended_import_guards.1 (fun n => toString n) state1,
    c7_amended_import_guards.2.1 (fun n => toString n) [""] state1 (by decide),
    (c7_amended_import_guards.2.2 (fun n => toString n) state1).1,
    (c7_amended_import_guards.2.2 (fun n => toString n) state1).2⟩

theorem qCeil_eq_neg_floor (a : ℚ) : ⌈a⌉ = -⌊-a⌋ := by
  rw [Int.floor_neg]
  ring

/-- C1 (amended): for a measured container at least one tile wide, the
animation target localFinalX equals the spec formula
containerCenter - (targetDisplayIndex * STEP + TILE_W / 2), but the
translateX snapped to on completion is the rounding of that formula plus
the deliberate random offset (u - 1/2) * 30, so the target tile center
rests within 15.5 pixels of the container center line, not within 1. -/
theorem c1_rest_position (l : Roulette.Layout) (targetIndex : ℕ) (u : ℚ)
    (hpadL : 0 ≤ l.padL) (hpadR : 0 ≤ l.padR)
    (hw : Roulette.TILE_W ≤ l.width - l.padL - l.padR) (hu0 : 0 ≤ u) (hu1 : u < 1) :
    Roulette.localFinalX l targetIndex = Roulette.specFinalX l targetIndex ∧
    Roulette.restX l targetIndex u =
      round (Roulette.specFinalX l targetIndex + (u - 1/2) * 30) ∧
    |(Roulette.restX l targetIndex u : ℚ) - Roulette.specFinalX l targetIndex| ≤
      31/2 := by
  rw [Roulette.TILE_W] at hw
  have hcw : Roulette.contentW l = l.width - l.padL - l.padR := by
    rw [Roulette.contentW, max_eq_right]
    linarith
  have hwpos : 0 < l.width := by linarith
  have hfx : Roulette.finalX l targetIndex u =
      Roulette.specFinalX l targetIndex + (u - 1/2) * 30 := by
    simp only [Roulette.finalX, Roulette.specFinalX, Roulette.targetCenter]
  refine ⟨?_, ?_, ?_⟩
  · simp only [Roulette.localFinalX, Roulette.specFinalX, Roulette.centerOffset,
      Roulette.containerCenter, Roulette.targetCenter, hcw]
    rw [if_neg (by linarith)]
    ring
  · rw [Roulette.restX, hfx]
  · have hspec : Roulette.specFinalX l targetIndex =
        Roulette.finalX l targetIndex u - (u - 1/2) * 30 := by
      rw [hfx]
      ring
    have key : ((Roulette.restX l targetIndex u : ℚ) -
        Roulette.specFinalX l targetIndex) =
        ((round (Roulette.finalX l targetIndex u) : ℚ) -
          Roulette.finalX l targetIndex u) + (u - 1/2) * 30 := by
      rw [Roulette.restX, hspec]
      ring
    rw [key]
    have h1 : |((round (Roulette.finalX l targetIndex u) : ℚ) -
        Roulette.finalX l targetIndex u)| ≤ 1/2 := by
      rw [abs_sub_comm]
      exact abs_sub_round _
    have hd : |(u - 1/2) * 30| ≤ 15 := by
      rw [abs_le]
      constructor <;> nlinarith
    calc |((round (Roulette.finalX l targetIndex u) : ℚ) -
          Roulette.finalX l targetIndex u) + (u - 1/2) * 30|
        ≤ |((round (Roulette.finalX l targetIndex u) : ℚ) -
            Roulette.finalX l targetIndex u)| + |(u - 1/2) * 30| := abs_add _ _
      _ ≤ 1/2 + 15 := add_le_add h1 hd
      _ ≤ 31/2 := by norm_num

/-- C1 witness: the amended statement at a 600-wide container with
8-pixel paddings, target index 0 and the centered draw one half. -/
theorem c1_rest_position_witness :
    Roulette.localFinalX ⟨600, 8, 8⟩ 0 = Roulette.specFinalX ⟨600, 8, 8⟩ 0 ∧
    Roulette.restX ⟨600, 8, 8⟩ 0 (1/2) =
      round (Roulette.specFinalX ⟨600, 8, 8⟩ 0 + ((1:ℚ)/2 - 1/2) * 30) ∧
    |(Roulette.restX ⟨600, 8, 8⟩ 0 (1/2) : ℚ) - Roulette.specFinalX ⟨600, 8, 8⟩ 0| ≤
      31/2 :=
  c1_rest_position ⟨600, 8, 8⟩ 0 (1/2) (by norm_num) (by norm_num)
    (by norm_num [Roulette.TILE_W]) (by norm_num) (by norm_num)

/-- C1 counterexample: at a 600-wide container with 8-pixel paddings and
target index 18, the draw 0.9 gives the random offset 12, so the reel
rests at -2564 while the spec formula gives -2576 - more than one pixel
away. -/
theorem c1_random_offset_counterexample :
    Roulette.restX ⟨600, 8, 8⟩ 18 (9/10) = -2564 ∧
    Roulette.specFinalX ⟨600, 8, 8⟩ 18 = -2576 ∧
    ¬(|(Roulette.restX ⟨600, 8, 8⟩ 18 (9/10) : ℚ) -
        Roulette.specFinalX ⟨600, 8, 8⟩ 18| ≤ 1) := by
  have hspec : Roulette.specFinalX ⟨600, 8, 8⟩ 18 = -2576 := by
    norm_num [Roulette.specFinalX, Roulette.containerCenter, Roulette.contentW,
      Roulette.targetDisplayIndex, Roulette.prepad, Roulette.half,
      Roulette.visibleCount, Roulette.STEP, Roulette.TILE_W, Roulette.TILE_GAP,
      qCeil_eq_neg_floor]
  have hrest : Roulette.restX ⟨600, 8, 8⟩ 18 (9/10) = -2564 := by
    norm_num [Roulette.restX, Roulette.finalX, Roulette.containerCenter,
      Roulette.contentW, Roulette.targetCenter, Roulette.targetDisplayIndex,
      Roulette.prepad, Roulette.half, Roulette.visibleCount, Roulette.STEP,
      Roulette.TILE_W, Roulette.TILE_GAP, qCeil_eq_neg_floor, round_eq]
  refine ⟨hrest, hspec, ?_⟩
  rw [hrest, hspec]
  norm_num
